import Mathlib

/-!
Shallow embedding of `update.py` from the cow repository, together with
theorems settling the frozen claims about its specification.  Each section
first translates the relevant Python definitions into executable Lean
definitions and then proves (or refutes) the claims about them.
-/

namespace Cow

/-! ## Python exceptions

A raisable Python object is modelled by its class name together with the
flag telling whether the class derives from `Exception` (as opposed to
deriving only from `BaseException`, as `KeyboardInterrupt` and `SystemExit`
do).  The distinction matters because `transact` catches handler failures
with `except Exception`. -/

/-- A raised Python object: its class name and whether its class derives
from `Exception` (rather than only from `BaseException`). -/
structure PyExc where
  name : String
  isException : Bool
deriving DecidableEq, Repr

/-- `KeyboardInterrupt` derives from `BaseException` but not `Exception`. -/
def keyboardInterrupt : PyExc := ⟨"KeyboardInterrupt", false⟩

/-- `ValueError` is an ordinary `Exception`. -/
def valueError : PyExc := ⟨"ValueError", true⟩

/-- `OSError` is an ordinary `Exception`. -/
def osError : PyExc := ⟨"OSError", true⟩

/-! ## The transactional scope (`transact`, update.py lines 59-91)

`transact(prepare, final, commit, rollback)` is a context manager.  We embed
the part the claims are about: what happens when the `with` body finishes,
given the prepared value and the body's outcome.  A handler is the pair of
its log message and its behaviour on the `(value, error)` argument the code
passes; `none` means the handler returned normally, `some h` that it raised
`h`. -/

/-- One `transact` handler: the message logged before running it and its
behaviour on the `(value, error)` pair, `some h` meaning it raises `h`. -/
structure Handler (α : Type) where
  msg : Option String
  fn : α × Option PyExc → Option PyExc

/-- Outcome of the `with transact(...)` block: normal completion with the
prepared value, or an exception propagating out.  `logged` records the
handler exceptions swallowed by `logging.exception`. -/
inductive TransactOutcome (α : Type) where
  | ok (value : α) (logged : List PyExc)
  | raised (e : PyExc) (logged : List PyExc)
deriving DecidableEq, Repr

/-- Exit phase of `transact` (update.py lines 70-90): `body = none` models a
body that completed normally, `body = some e` a body that raised `e`.  On
failure the code runs `next(filter(None, (final, rollback)))` and re-raises;
on success it runs `next(filter(None, (final, commit)))`.  In both cases a
handler exception is caught by `except Exception` — so only when it is an
`Exception` instance — and logged. -/
def transact_exit {α : Type} (final commit rollback : Option (Handler α))
    (rv : α) (body : Option PyExc) : TransactOutcome α :=
  match body with
  | some e =>
    match final.orElse (fun _ => rollback) with
    | none => .raised e []
    | some h =>
      match h.fn (rv, some e) with
      | none => .raised e []
      | some hx => if hx.isException then .raised e [hx] else .raised hx []
  | none =>
    match final.orElse (fun _ => commit) with
    | none => .ok rv []
    | some h =>
      match h.fn (rv, none) with
      | none => .ok rv []
      | some hx => if hx.isException then .ok rv [hx] else .raised hx []

/-- A rollback handler that raises `KeyboardInterrupt`, as `sys.exit()` or a
user interrupt inside a rollback action would. -/
def interruptingRollback : Handler Unit := ⟨some "rolling back", fun _ => some keyboardInterrupt⟩

/-- A rollback handler that raises `OSError`, an `Exception` instance. -/
def failingRollback : Handler Unit := ⟨some "rolling back", fun _ => some osError⟩

/-- A commit handler that raises `OSError`, an `Exception` instance. -/
def failingCommit : Handler Unit := ⟨some "committing", fun _ => some osError⟩

/-- Claim C2, counterexample: a rollback handler that raises
`KeyboardInterrupt` (which derives only from `BaseException`) escapes the
`except Exception` catch in `transact`, so the exception propagating out of
the scope is the handler's, not the original `ValueError`, and nothing is
logged.  The claim's "the exception that propagates out of the scope is
always the original e, for every possible handler exception" is therefore
false. -/
theorem transact_rollback_shadows_on_base_exception :
    transact_exit (α := Unit) none none (some interruptingRollback) ()
        (some valueError)
      = .raised keyboardInterrupt []
    ∧ keyboardInterrupt ≠ valueError := by
  exact ⟨rfl, by decide⟩

/-- Claim C2, amended: when the body of a `transact` scope raises `e` and the
rollback (or final) handler raises an exception `hx` that is an `Exception`
instance, `hx` is logged and the original `e` still propagates; likewise when
the handler returns normally nothing is logged and `e` propagates. -/
theorem transact_rollback_preserves_error {α : Type} (hd : Handler α)
    (commit : Option (Handler α)) (rv : α) (e hx : PyExc)
    (hexc : hx.isException = true) :
    (hd.fn (rv, some e) = some hx →
      transact_exit none commit (some hd) rv (some e) = .raised e [hx]
      ∧ transact_exit (some hd) none none rv (some e) = .raised e [hx])
    ∧ (hd.fn (rv, some e) = none →
      transact_exit none commit (some hd) rv (some e) = .raised e []
      ∧ transact_exit (some hd) none none rv (some e) = .raised e []) := by
  constructor
  · intro hfn
    constructor <;> simp [transact_exit, Option.orElse, hfn, hexc]
  · intro hfn
    constructor <;> simp [transact_exit, Option.orElse, hfn]

/-- Claim C2, witness: the amended theorem at the concrete rollback handler
that raises `OSError` while the body raised `ValueError`: the `ValueError`
propagates and the `OSError` is logged. -/
theorem transact_rollback_preserves_error_witness :
    transact_exit (α := Unit) none none (some failingRollback) ()
        (some valueError)
      = .raised valueError [osError] := by
  exact ((transact_rollback_preserves_error failingRollback none () valueError
    osError rfl).1 rfl).1

/-- Claim C8: when the body of a `transact` scope completes normally and the
commit (or final) handler raises an exception `hx` — an `Exception` instance,
which is what `except Exception` in the source catches — `hx` is logged and
swallowed: the scope still completes normally with the prepared value, so the
caller observes success even though the commit action did not take effect. -/
theorem transact_commit_swallows {α : Type} (hd : Handler α) (rv : α)
    (hx : PyExc) (hexc : hx.isException = true) :
    (hd.fn (rv, none) = some hx →
      transact_exit none (some hd) none rv none = .ok rv [hx]
      ∧ transact_exit (some hd) none none rv none = .ok rv [hx])
    ∧ (hd.fn (rv, none) = none →
      transact_exit none (some hd) none rv none = .ok rv []
      ∧ transact_exit (some hd) none none rv none = .ok rv []) := by
  constructor
  · intro hfn
    constructor <;> simp [transact_exit, Option.orElse, hfn, hexc]
  · intro hfn
    constructor <;> simp [transact_exit, Option.orElse, hfn]

/-- Claim C8, witness: the theorem at the concrete commit handler
that raises `OSError` after a successful body: the scope still completes
normally and the `OSError` is logged. -/
theorem transact_commit_swallows_witness :
    transact_exit (α := Unit) none (some failingCommit) none () none
      = .ok () [osError] := by
  exact ((transact_commit_swallows failingCommit () osError rfl).1 rfl).1

/-! ## Filesystem model

`saved_config` and `move_link` manipulate boot-config paths with
`os.path.exists`, `os.rename`, `os.remove` and `os.symlink`.  The filesystem
is an association list from paths to entries.  Dangling symlinks are not
representable, so `os.path.exists` coincides with presence of an entry. -/

/-- A filesystem entry: a regular file with its contents, or a symlink. -/
inductive Entry where
  | file (content : String)
  | symlink (target : String)
deriving DecidableEq, Repr

/-- A filesystem: paths mapped to entries, first binding wins. -/
abbrev FS := List (String × Entry)

/-- Entry at a path, if any. -/
def FS.lookup (fs : FS) (p : String) : Option Entry :=
  match fs with
  | [] => none
  | (q, e) :: rest => if q = p then some e else FS.lookup rest p

/-- Model of `os.path.exists`. -/
def FS.exists (fs : FS) (p : String) : Bool :=
  (fs.lookup p).isSome

/-- Model of `os.remove` / `os.unlink` (callers check existence first where
the source does). -/
def FS.erase : FS → String → FS
  | [], _ => []
  | (q, e) :: rest, p => if q = p then FS.erase rest p else (q, e) :: FS.erase rest p

/-- Creation of an entry at `p`, replacing any previous one. -/
def FS.insert (fs : FS) (p : String) (e : Entry) : FS :=
  (p, e) :: fs.erase p

/-- Model of `os.rename src dst`: moves the entry at `src` over `dst`,
overwriting it.  Every call site in the source renames an existing entry. -/
def FS.rename (fs : FS) (src dst : String) : FS :=
  match fs.lookup src with
  | none => fs
  | some e => (fs.erase src).insert dst e

/-- Python errors the embedded fragments can raise. -/
inductive PyErr where
  | fileNotFoundError (path : String)
  | attributeError
  | indexError
  | runtimeError (msg : String)
  | processFailure (cmd : String)
deriving DecidableEq, Repr

/-! ## `move_link` (update.py lines 446-452)

The stale-link branch calls `logging.waring`, and the `logging` module has
no attribute `waring`, so that branch raises `AttributeError` before the
`os.unlink` that follows it. -/

/-- `move_link(src, dst)`: remove a stale `<dst>.new`, symlink `src` at
`<dst>.new`, rename it over `dst`.  The removal branch first calls the
misspelled `logging.waring`, which raises `AttributeError`.  The error case
carries the filesystem as it is when the exception is raised. -/
def move_link (src dst : String) (fs : FS) : Except (PyErr × FS) FS :=
  let new_dst := dst ++ ".new"
  if fs.exists new_dst then
    .error (.attributeError, fs)
  else
    .ok ((fs.insert new_dst (.symlink src)).rename new_dst dst)

/-- Lookup after erasing the same path finds nothing. -/
theorem FS.lookup_erase_self (fs : FS) (p : String) :
    (fs.erase p).lookup p = none := by
  induction fs with
  | nil => rfl
  | cons kv rest ih =>
    obtain ⟨k, e⟩ := kv
    by_cases h : k = p
    · simpa [FS.erase, FS.lookup, h] using ih
    · simpa [FS.erase, FS.lookup, h] using ih

/-- Lookup after inserting at the same path finds the inserted entry. -/
theorem FS.lookup_insert_self (fs : FS) (p : String) (e : Entry) :
    (fs.insert p e).lookup p = some e := by
  simp [FS.insert, FS.lookup]

/-- Lookup after erasing a different path is unchanged. -/
theorem FS.lookup_erase_other (fs : FS) (p q : String) (h : p ≠ q) :
    (fs.erase p).lookup q = fs.lookup q := by
  induction fs with
  | nil => rfl
  | cons kv rest ih =>
    obtain ⟨k, e⟩ := kv
    have hqp : q ≠ p := fun hh => h hh.symm
    by_cases hk : k = p
    · have hq : k ≠ q := by simpa [hk] using h
      simp [FS.erase, FS.lookup, hk, hq, ih, h]
    · by_cases hq : k = q
      · simp [FS.erase, FS.lookup, hk, hq, hqp]
      · simp [FS.erase, FS.lookup, hk, hq, ih]

/-- Appending `.new` to a path yields a different path. -/
theorem append_new_ne (dst : String) : dst ++ ".new" ≠ dst := by
  intro h
  have hlen := congrArg String.length h
  rw [String.length_append] at hlen
  have h4 : String.length ".new" = 4 := rfl
  omega

/-- Claim C9: when `<dst>.new` does not pre-exist, `move_link` creates the
symlink at `<dst>.new` and renames it over `dst`, so afterwards `dst` is a
symlink to `src` and `<dst>.new` is gone; when `<dst>.new` does pre-exist,
the misspelled `logging.waring` raises `AttributeError` before the stale
link is removed, leaving the filesystem untouched, so the swap never
happens. -/
theorem move_link_spec (src dst : String) (fs : FS) :
    (fs.exists (dst ++ ".new") = true →
      move_link src dst fs = .error (.attributeError, fs))
    ∧ (fs.exists (dst ++ ".new") = false →
      ∃ fs2, move_link src dst fs = .ok fs2
        ∧ fs2.lookup dst = some (.symlink src)
        ∧ fs2.exists (dst ++ ".new") = false) := by
  constructor
  · intro h
    simp [move_link, h]
  · intro h
    have hne : dst ≠ dst ++ ".new" := fun h2 => append_new_ne dst h2.symm
    refine ⟨(fs.insert (dst ++ ".new") (.symlink src)).rename (dst ++ ".new") dst,
      by simp [move_link, h], ?_, ?_⟩
    · rw [FS.rename, FS.lookup_insert_self]
      exact FS.lookup_insert_self _ dst _
    · simp only [FS.rename, FS.lookup_insert_self, FS.exists, FS.insert,
        FS.lookup, if_neg hne]
      rw [FS.lookup_erase_other _ dst (dst ++ ".new") hne,
        FS.lookup_erase_self]
      rfl

/-- Claim C9, witness: the two cases of `move_link_spec` at concrete inputs:
with a stale `b.new` present the call fails with `AttributeError` and the
filesystem is untouched; with no stale link the call succeeds. -/
theorem move_link_spec_witness :
    move_link "a" "b" [("b.new", .file "stale")]
      = .error (.attributeError, [("b.new", .file "stale")])
    ∧ ∃ fs2, move_link "a" "b" [] = .ok fs2
        ∧ fs2.lookup "b" = some (.symlink "a")
        ∧ fs2.exists "b.new" = false := by
  exact ⟨(move_link_spec "a" "b" [("b.new", .file "stale")]).1 (by decide),
    (move_link_spec "a" "b" []).2 (by decide)⟩

/-! ## `saved_config` (update.py lines 850-870)

The scope renames an existing `<path>` to `<path>.old` on entry (after
removing a stale `.old`), restores it from `.old` when the body raises, and
runs `os.remove(<path>.old)` unconditionally when the body succeeds.  The
body of the `with` block is modelled as a function from the filesystem at
entry to either a final filesystem or a raised error with the filesystem at
the raise. -/

/-- `saved_config(path)` wrapped around a `body`: the full enter/exit
protocol of the context manager.  The restore branch corresponds to the
source's `except Exception` (every `PyErr` models an `Exception` instance).
Note the success branch removes `<path>.old` without checking it exists. -/
def saved_config_run (path : String) (body : FS → Except (PyErr × FS) FS)
    (fs : FS) : Except (PyErr × FS) FS :=
  let old_path := path ++ ".old"
  let fs1 := if fs.exists old_path then fs.erase old_path else fs
  let fs2 := if fs1.exists path = false then fs1 else fs1.rename path old_path
  match body fs2 with
  | .error (e, fs3) =>
    .error (e, if fs3.exists old_path then fs3.rename old_path path else fs3)
  | .ok fs3 =>
    if fs3.exists old_path then .ok (fs3.erase old_path)
    else .error (.fileNotFoundError old_path, fs3)

/-- Claim C1: evaluation of `saved_config` at the failing input.  In the
pre-state where no file exists at `<path>`, a body that succeeds without
touching the filesystem makes the scope raise `FileNotFoundError` from the
unconditional `os.remove(<path>.old)` on the success path, instead of
exiting normally; the claim's guarantee therefore fails in exactly the
pre-state it singles out. -/
theorem saved_config_missing_file_bug :
    saved_config_run "boot.ipxe" (fun fs => .ok fs) []
      = .error (.fileNotFoundError "boot.ipxe.old", []) := by
  rfl

/-! ## Python string stripping

`str.strip()` with no argument removes leading and trailing whitespace; the
embedding covers the ASCII whitespace characters. -/

/-- ASCII whitespace in the sense of Python `str.isspace`. -/
def pyspace (c : Char) : Bool :=
  c == ' ' || c == '\t' || c == '\n' || c == '\r' || c == '\x0b' || c == '\x0c'

/-- Python `str.strip()` over ASCII whitespace. -/
def pystrip (s : String) : String :=
  ⟨((s.data.dropWhile pyspace).reverse.dropWhile pyspace).reverse⟩

/-! ## `is_lv_open` (update.py lines 315-325)

`output = log_and_output(cmdline).strip(); flag = output[5]` — the indexing
raises `IndexError` when the stripped output has fewer than six characters;
only the unrecognised-flag branch raises `RuntimeError`. -/

/-- `is_lv_open(name)` as a function of the raw output of
`lvs -o lv_attr --noheadings <name>`. -/
def is_lv_open (output_raw : String) : Except PyErr Bool :=
  let output := pystrip output_raw
  match output.data.get? 5 with
  | none => .error .indexError
  | some flag =>
    if flag = '-' then .ok false
    else if flag = 'o' then .ok true
    else .error (.runtimeError ("Cannot parse LV attributes \"" ++ output ++ "\""))

/-- Tests whether a result is a raised `RuntimeError`. -/
def isRuntimeErr : Except PyErr Bool → Bool
  | .error (.runtimeError _) => true
  | _ => false

/-- Claim C6, counterexample: on the stripped output `"abc"`, which has
fewer than six characters, `is_lv_open` raises `IndexError`, not the
`RuntimeError` the claim promises for every output that is neither closed
nor open. -/
theorem is_lv_open_short_output_not_runtime :
    is_lv_open "abc" = .error .indexError
    ∧ isRuntimeErr (is_lv_open "abc") = false := by
  exact ⟨rfl, rfl⟩

/-- Claim C6, amended: `is_lv_open` returns `false` when the sixth character
of the stripped output is a dash, `true` when it is `o`, raises
`RuntimeError` for any other sixth character, and raises `IndexError` (not
`RuntimeError`) when the stripped output has fewer than six characters. -/
theorem is_lv_open_cases (raw : String) :
    ((pystrip raw).data[5]? = some '-' → is_lv_open raw = .ok false)
    ∧ ((pystrip raw).data[5]? = some 'o' → is_lv_open raw = .ok true)
    ∧ (∀ c, (pystrip raw).data[5]? = some c → c ≠ '-' → c ≠ 'o' →
        is_lv_open raw
          = .error (.runtimeError
              ("Cannot parse LV attributes \"" ++ pystrip raw ++ "\"")))
    ∧ ((pystrip raw).length < 6 → is_lv_open raw = .error .indexError) := by
  refine ⟨fun h => ?_, fun h => ?_, fun c h hc1 hc2 => ?_, fun h => ?_⟩
  · simp [is_lv_open, h]
  · simp [is_lv_open, h]
  · simp [is_lv_open, h, hc1, hc2]
  · have hn : (pystrip raw).data[5]? = none := by
      refine List.getElem?_eq_none ?_
      have h2 : (pystrip raw).length = (pystrip raw).data.length := rfl
      omega
    simp [is_lv_open, hn]

/-- Claim C6, witness: the amended theorem at concrete `lvs` outputs — an
open LV line, a closed LV line, an unparsable line, and a too-short line. -/
theorem is_lv_open_cases_witness :
    is_lv_open "  owi-aos---" = .ok true
    ∧ is_lv_open "  -wi-------" = .ok false
    ∧ is_lv_open "  owi-aXs---" = .error
        (.runtimeError ("Cannot parse LV attributes \"" ++ pystrip "  owi-aXs---" ++ "\""))
    ∧ is_lv_open "  abc " = .error .indexError := by
  refine ⟨(is_lv_open_cases "  owi-aos---").2.1 (by decide),
    (is_lv_open_cases "  -wi-------").1 (by decide),
    (is_lv_open_cases "  owi-aXs---").2.2.1 'X' (by decide) (by decide) (by decide),
    (is_lv_open_cases "  abc ").2.2.2 (by decide)⟩

/-! ## `booted_properly` (update.py lines 893-913)

The inner predicate of `reboot_and_check_test_vm`: reachable host with a
readable `/etc/timestamp` returns `True` whatever the timestamp says (a
mismatch is only a warning); an unreachable host returns `False`; a failing
read logs the exception and falls off the function, returning `None`. -/

/-- Return value of a Python function that can return a bool or fall
through to `None`. -/
inductive PyRet where
  | none
  | bool (b : Bool)
deriving DecidableEq, Repr

/-- Python truthiness of a `PyRet`. -/
def PyRet.truthy : PyRet → Bool
  | .none => false
  | .bool b => b

/-- Events `booted_properly` logs. -/
inductive BootLog where
  | warnTimestampMismatch (actual expected : String)
  | excReadFailed
deriving DecidableEq, Repr

/-- `booted_properly(host)`: `accessible` is the result of
`is_accessible(host)`, `readResult` the output of
`ssh host cat /etc/timestamp` (`none` when the command raised). -/
def booted_properly (accessible : Bool) (readResult : Option String)
    (timestamp : String) : PyRet × List BootLog :=
  if accessible = false then (.bool false, [])
  else
    match readResult with
    | some raw =>
      let output := pystrip raw
      if output ≠ timestamp then
        (.bool true, [.warnTimestampMismatch output timestamp])
      else
        (.bool true, [])
    | none => (.none, [.excReadFailed])

/-- Claim C3: `booted_properly` is truthy exactly when the host is
accessible and the timestamp read succeeded — a timestamp mismatch does not
make it falsy, it only logs a warning. -/
theorem booted_properly_truthy (accessible : Bool) (readResult : Option String)
    (timestamp : String) :
    (booted_properly accessible readResult timestamp).1.truthy
      = (accessible && readResult.isSome)
    ∧ (accessible = true → ∀ raw, readResult = some raw →
        pystrip raw ≠ timestamp →
        booted_properly accessible readResult timestamp
          = (.bool true, [.warnTimestampMismatch (pystrip raw) timestamp])) := by
  constructor
  · cases accessible with
    | false => simp [booted_properly, PyRet.truthy]
    | true =>
      cases readResult with
      | none => simp [booted_properly, PyRet.truthy]
      | some raw =>
        by_cases h : pystrip raw = timestamp <;>
          simp [booted_properly, PyRet.truthy, h]
  · intro ha raw hr hm
    subst ha
    subst hr
    simp [booted_properly, hm]

/-- Claim C3, witness: a reachable host returning a wrong timestamp is still
truthy (with a warning logged), and a reachable host whose read fails is
falsy. -/
theorem booted_properly_truthy_witness :
    (booted_properly true (some "2024-01-01-00-00-00\n") "2025-06-01-12-00-00").1.truthy
      = true
    ∧ (booted_properly true none "2025-06-01-12-00-00").1.truthy = false
    ∧ (booted_properly false (some "2025-06-01-12-00-00") "2025-06-01-12-00-00").1.truthy
      = false := by
  refine ⟨?_, ?_, ?_⟩
  · rw [(booted_properly_truthy true (some "2024-01-01-00-00-00\n")
      "2025-06-01-12-00-00").1]
    rfl
  · rw [(booted_properly_truthy true none "2025-06-01-12-00-00").1]
    rfl
  · rw [(booted_properly_truthy false (some "2025-06-01-12-00-00")
      "2025-06-01-12-00-00").1]
    rfl

/-! ## Dynamic iSCSI sessions (update.py lines 1022-1032)

`get_dynamic_iscsi_sessions` reads
`/sys/kernel/config/target/iscsi/<target>/tpgt_1/dynamic_sessions` when the
file exists, splits its content on NUL, strips each piece and drops the
empty ones; a missing file yields the empty list. -/

/-- `get_dynamic_iscsi_sessions(target_name)`: `fileExists` and `content`
stand for the sysfs file. -/
def get_dynamic_iscsi_sessions (fileExists : Bool) (content : String) :
    List String :=
  if fileExists = false then []
  else ((content.splitOn "\x00").map pystrip).filter (fun s => s ≠ "")

/-! ## `clean_snapshot` (update.py lines 1043-1102)

The cleaner's effect on the resources it reclaims, with oracles for the
external commands.  The early-return on active sessions without `force` is
the subject of claim C4; the rest follows the sequence of steps of the
source: best-effort target/backstore/copy removals with logged failures,
fatal `saveconfig`, `cleanup_kpartx`, `is_lv_open` gate, `remove_lv`, and a
final cache-LV removal. -/

/-- Presence of the resources `clean_snapshot` touches. -/
structure SnapState where
  ipxeConfig : Bool
  artifacts : Bool
  iscsiTarget : Bool
  iscsiBackstore : Bool
  cacheRecord : Bool
  copyLV : Bool
  snapshotLV : Bool
  cacheLV : Bool
deriving DecidableEq, Repr

/-- Oracles for the external commands run by `clean_snapshot`: which ones
succeed and what `lvs -o lv_attr --noheadings` prints for the snapshot. -/
structure CleanWorld where
  removeTargetOk : Bool
  removeBackstoreOk : Bool
  saveconfigOk : Bool
  kpartxOk : Bool
  removeCopyOk : Bool
  lvsOutput : String
  removeLvOk : Bool
  removeCacheOk : Bool
deriving DecidableEq, Repr

/-- `clean_snapshot(output, cache_config, name, force)`: `cacheConfigured`
tells whether a cache config was passed, `sessions` is what
`get_dynamic_iscsi_sessions` returned, and the error case carries the state
at the raise. -/
def clean_snapshot (w : CleanWorld) (cacheConfigured : Bool)
    (sessions : List String) (force : Bool) (s : SnapState) :
    Except (PyErr × SnapState) SnapState :=
  if sessions.isEmpty = false ∧ force = false then
    .ok s
  else
    let s1 := if s.ipxeConfig then { s with ipxeConfig := false } else s
    let s2 := if s1.artifacts then { s1 with artifacts := false } else s1
    let s3 := if w.removeTargetOk then { s2 with iscsiTarget := false } else s2
    let s4 :=
      if w.removeBackstoreOk then { s3 with iscsiBackstore := false } else s3
    if w.saveconfigOk = false then
      .error (.processFailure "targetcli saveconfig", s4)
    else if w.kpartxOk = false then
      .error (.runtimeError "Failed to cleanup partitions with kpartx", s4)
    else
      let s5 := if cacheConfigured then { s4 with cacheRecord := false } else s4
      let s6 :=
        if s5.copyLV then
          if w.removeCopyOk then { s5 with copyLV := false } else s5
        else s5
      match is_lv_open w.lvsOutput with
      | .error e => .error (e, s6)
      | .ok true => .error (.runtimeError "LV is still open", s6)
      | .ok false =>
        if w.removeLvOk = false then .error (.processFailure "lvremove", s6)
        else
          let s7 := { s6 with snapshotLV := false }
          if s7.cacheLV then
            if w.removeCacheOk then .ok { s7 with cacheLV := false }
            else .error (.processFailure "lvremove cache", s7)
          else .ok s7

/-- Claim C4: with a non-empty dynamic-sessions list and `force = False`,
`clean_snapshot` performs no removal of any kind — it returns with the
resource state exactly as before, whatever the command oracles would have
answered. -/
theorem clean_snapshot_skips_active (w : CleanWorld) (cacheConfigured : Bool)
    (sessions : List String) (force : Bool) (s : SnapState)
    (hs : sessions ≠ []) (hf : force = false) :
    clean_snapshot w cacheConfigured sessions force s = .ok s := by
  have h1 : sessions.isEmpty = false := by
    cases sessions with
    | nil => exact absurd rfl hs
    | cons a l => rfl
  rw [clean_snapshot, if_pos ⟨h1, hf⟩]

/-- A `CleanWorld` in which every external command succeeds and the LV is
reported closed. -/
def allOkWorld : CleanWorld :=
  ⟨true, true, true, true, true, "  -wi-------", true, true⟩

/-- The state in which every resource of a snapshot is present. -/
def allPresent : SnapState := ⟨true, true, true, true, true, true, true, true⟩

/-- The state in which every resource of a snapshot has been reclaimed. -/
def allCleared : SnapState :=
  ⟨false, false, false, false, false, false, false, false⟩

/-- Claim C4, witness: a snapshot with one active session and `force=False`
is left completely untouched even though every removal command would have
succeeded. -/
theorem clean_snapshot_skips_active_witness :
    clean_snapshot allOkWorld true ["iqn.2013-07.cow.s:host_2024-01-02_03-04-05"]
      false allPresent = .ok allPresent := by
  exact clean_snapshot_skips_active allOkWorld true _ false allPresent
    (by decide) rfl

/-- Claim C10: when the `dynamic_sessions` file does not exist,
`get_dynamic_iscsi_sessions` returns the empty list instead of failing, and
`clean_snapshot` then behaves without `force` exactly as it would with it,
proceeding with reclamation: on a fully-present snapshot with all commands
succeeding it reclaims everything. -/
theorem get_dynamic_iscsi_sessions_missing_file (content : String)
    (w : CleanWorld) (cacheConfigured : Bool) (s : SnapState) :
    get_dynamic_iscsi_sessions false content = []
    ∧ clean_snapshot w cacheConfigured
        (get_dynamic_iscsi_sessions false content) false s
      = clean_snapshot w cacheConfigured
        (get_dynamic_iscsi_sessions false content) true s
    ∧ clean_snapshot allOkWorld true
        (get_dynamic_iscsi_sessions false content) false allPresent
      = .ok allCleared := by
  refine ⟨rfl, ?_, by rfl⟩
  show clean_snapshot w cacheConfigured [] false s
    = clean_snapshot w cacheConfigured [] true s
  rw [clean_snapshot, clean_snapshot]
  simp

/-! ## `wait_for` (update.py lines 49-56)

The loop samples the clock at each guard, polls the condition while the
elapsed time is below the timeout, sleeps `step` between polls, and raises
`Timeout` at the first guard at which the timeout has elapsed.  Time is
modelled explicitly: `dur i` is the time the `i`-th `condition()` call
consumes and each `time.sleep(step)` advances the clock by `step`; `elapsed`
is `time.time() - start_time` as sampled at the loop guard.  The `while`
loop is embedded with fuel; with enough fuel the `fuelOut` marker is never
reached (proved below). -/

/-- Events observable while `wait_for` runs. -/
inductive WaitEvent where
  | poll (i : Nat) (result : Bool)
  | sleep
deriving DecidableEq, Repr

/-- Result of `wait_for`: the returned `True` or the raised `Timeout`, each
with the elapsed time at that moment, or exhaustion of the modelling fuel. -/
inductive WaitResult where
  | success (elapsed : Int)
  | timeoutExc (elapsed : Int)
  | fuelOut
deriving DecidableEq, Repr

/-- Loop body of `wait_for`: `cond i` is the result of the `i`-th
`condition()` call and `dur i` the time it consumes. -/
def wait_for_loop (cond : Nat → Bool) (dur : Nat → Int) (timeout step : Int) :
    Nat → Nat → Int → WaitResult × List WaitEvent
  | 0, _, _ => (.fuelOut, [])
  | fuel + 1, i, elapsed =>
    if elapsed < timeout then
      if cond i then (.success (elapsed + dur i), [.poll i true])
      else
        let r := wait_for_loop cond dur timeout step fuel (i + 1)
          (elapsed + dur i + step)
        (r.1, .poll i false :: .sleep :: r.2)
    else (.timeoutExc elapsed, [])

/-- `wait_for(condition, timeout, step)`: start the clock at zero and run
the loop. -/
def wait_for (cond : Nat → Bool) (dur : Nat → Int) (timeout step : Int)
    (fuel : Nat) : WaitResult × List WaitEvent :=
  wait_for_loop cond dur timeout step fuel 0 0

/-- Elapsed time accumulated by `k` false polls starting at poll index `i`:
each costs its duration plus one sleep of `step`. -/
def waitElapsed (dur : Nat → Int) (step : Int) (i : Nat) : Nat → Int
  | 0 => 0
  | k + 1 => dur i + step + waitElapsed dur step (i + 1) k

/-- Trace left by `k` false polls starting at index `i`. -/
def falseTrace (i : Nat) : Nat → List WaitEvent
  | 0 => []
  | k + 1 => .poll i false :: .sleep :: falseTrace (i + 1) k

/-- Accumulated poll time is nonnegative. -/
theorem waitElapsed_nonneg (dur : Nat → Int) (step : Int) (hstep : 0 ≤ step)
    (hdur : ∀ j, 0 ≤ dur j) :
    ∀ (k i : Nat), 0 ≤ waitElapsed dur step i k := by
  intro k
  induction k with
  | zero => intro i; exact le_refl 0
  | succ k ih =>
    intro i
    have h1 := hdur i
    have h2 := ih (i + 1)
    rw [waitElapsed]
    omega

/-- Helper: a run that reaches a truthy poll while the guard still passes
returns `True` at that poll, having slept exactly once between consecutive
polls and never before the first. -/
theorem wait_for_loop_success (cond : Nat → Bool) (dur : Nat → Int)
    (timeout step : Int) (hstep : 0 ≤ step) (hdur : ∀ j, 0 ≤ dur j) :
    ∀ (k fuel i : Nat) (elapsed : Int), k < fuel →
      (∀ j, j < k → cond (i + j) = false) → cond (i + k) = true →
      elapsed + waitElapsed dur step i k < timeout →
      wait_for_loop cond dur timeout step fuel i elapsed
        = (.success (elapsed + waitElapsed dur step i k + dur (i + k)),
           falseTrace i k ++ [.poll (i + k) true]) := by
  intro k
  induction k with
  | zero =>
    intro fuel i elapsed hfuel _ htrue helapsed
    obtain ⟨f, rfl⟩ : ∃ f, fuel = f + 1 := ⟨fuel - 1, by omega⟩
    rw [waitElapsed] at helapsed ⊢
    rw [Nat.add_zero] at htrue
    rw [wait_for_loop, if_pos (by omega : elapsed < timeout), if_pos htrue]
    rw [falseTrace]
    simp
  | succ k ih =>
    intro fuel i elapsed hfuel hfalse htrue helapsed
    obtain ⟨f, rfl⟩ : ∃ f, fuel = f + 1 := ⟨fuel - 1, by omega⟩
    have hnn := waitElapsed_nonneg dur step hstep hdur k (i + 1)
    have hdi := hdur i
    rw [waitElapsed] at helapsed
    have hguard : elapsed < timeout := by omega
    have hcondi : cond i = false := by
      have h0 := hfalse 0 (Nat.succ_pos k)
      simpa using h0
    rw [wait_for_loop, if_pos hguard,
      if_neg (by simp [hcondi] : ¬ cond i = true)]
    have hih := ih f (i + 1) (elapsed + dur i + step) (by omega)
      (fun j hj => by
        have h1 := hfalse (j + 1) (by omega)
        rw [show i + (j + 1) = i + 1 + j by omega] at h1
        exact h1)
      (by rw [show i + 1 + k = i + (k + 1) by omega]; exact htrue)
      (by omega)
    simp only [hih]
    rw [falseTrace, waitElapsed,
      show i + (k + 1) = i + 1 + k by omega]
    have hval : elapsed + dur i + step + waitElapsed dur step (i + 1) k
          + dur (i + 1 + k)
        = elapsed + (dur i + step + waitElapsed dur step (i + 1) k)
          + dur (i + 1 + k) := by omega
    rw [hval]
    simp

/-- Helper: a successful `wait_for` returns a nonnegative elapsed time
below `timeout + step`, provided no single poll outlasts a step. -/
theorem wait_for_loop_success_bound (cond : Nat → Bool) (dur : Nat → Int)
    (timeout step : Int) (hdur : ∀ j, 0 ≤ dur j ∧ dur j ≤ step) :
    ∀ (fuel i : Nat) (elapsed e : Int), 0 ≤ elapsed →
      (wait_for_loop cond dur timeout step fuel i elapsed).1 = .success e →
      0 ≤ e ∧ e < timeout + step := by
  intro fuel
  induction fuel with
  | zero =>
    intro i elapsed e _ h
    rw [wait_for_loop] at h
    exact absurd h (by simp)
  | succ f ih =>
    intro i elapsed e hnn h
    rw [wait_for_loop] at h
    by_cases hguard : elapsed < timeout
    · rw [if_pos hguard] at h
      by_cases hc : cond i = true
      · rw [if_pos hc] at h
        have he := WaitResult.success.inj h
        have hd := hdur i
        omega
      · rw [if_neg hc] at h
        have h2 : (wait_for_loop cond dur timeout step f (i + 1)
            (elapsed + dur i + step)).1 = .success e := h
        exact ih (i + 1) (elapsed + dur i + step) e
          (by have := hdur i; omega) h2
    · rw [if_neg hguard] at h
      exact absurd h (by simp)

/-- Helper: the `Timeout` exception is raised only once the elapsed time has
reached the timeout, and only when no poll so far was truthy. -/
theorem wait_for_loop_timeout (cond : Nat → Bool) (dur : Nat → Int)
    (timeout step : Int) :
    ∀ (fuel i : Nat) (elapsed e : Int) (tr : List WaitEvent),
      wait_for_loop cond dur timeout step fuel i elapsed = (.timeoutExc e, tr) →
      timeout ≤ e ∧ ∀ j, WaitEvent.poll j true ∉ tr := by
  intro fuel
  induction fuel with
  | zero =>
    intro i elapsed e tr h
    rw [wait_for_loop] at h
    exact absurd h (by simp)
  | succ f ih =>
    intro i elapsed e tr h
    rw [wait_for_loop] at h
    by_cases hguard : elapsed < timeout
    · rw [if_pos hguard] at h
      by_cases hc : cond i = true
      · rw [if_pos hc] at h
        exact absurd h (by simp)
      · rw [if_neg hc] at h
        cases hrec : wait_for_loop cond dur timeout step f (i + 1)
            (elapsed + dur i + step) with
        | mk res tr2 =>
          simp only [hrec] at h
          rw [Prod.mk.injEq] at h
          obtain ⟨h1, h2⟩ := h
          subst h1
          have hih := ih (i + 1) (elapsed + dur i + step) e tr2 hrec
          refine ⟨hih.1, ?_⟩
          intro j hj
          rw [← h2] at hj
          simp only [List.mem_cons] at hj
          rcases hj with h3 | h3 | h3
          · exact absurd h3 (by simp)
          · exact absurd h3 (by simp)
          · exact hih.2 j h3
    · rw [if_neg hguard] at h
      rw [Prod.mk.injEq] at h
      obtain ⟨h1, h2⟩ := h
      have h3 := WaitResult.timeoutExc.inj h1
      refine ⟨by omega, ?_⟩
      intro j hj
      rw [← h2] at hj
      simp at hj

/-- Helper: enough fuel rules the `fuelOut` marker out, because every
iteration advances the clock by at least `step ≥ 1`. -/
theorem wait_for_loop_no_fuelOut (cond : Nat → Bool) (dur : Nat → Int)
    (timeout step : Int) (hstep : 0 < step) (hdur : ∀ j, 0 ≤ dur j) :
    ∀ (fuel i : Nat) (elapsed : Int), (timeout - elapsed).toNat < fuel →
      (wait_for_loop cond dur timeout step fuel i elapsed).1 ≠ .fuelOut := by
  intro fuel
  induction fuel with
  | zero => intro i elapsed h; omega
  | succ f ih =>
    intro i elapsed h
    rw [wait_for_loop]
    by_cases hguard : elapsed < timeout
    · rw [if_pos hguard]
      by_cases hc : cond i = true
      · rw [if_pos hc]; simp
      · rw [if_neg hc]
        have hd := hdur i
        exact ih (i + 1) (elapsed + dur i + step) (by omega)
    · rw [if_neg hguard]; simp

/-- Claim C7: for every predicate, poll durations bounded by the step, and
a positive step, `wait_for` (1) with a nonpositive timeout raises `Timeout`
immediately with no poll and no sleep; (2) with a positive timeout first
polls — never sleeps — as its first action; (3) returns `True` at the first
truthy poll, having slept exactly `step` between consecutive polls, as long
as that poll starts before the timeout elapses; (4) on success the elapsed
time is below `timeout + step`; (5) the `Timeout` exception is raised
exactly when the timeout has elapsed with no truthy poll; and (6) the fuel
of the embedding is never what stops it, given fuel above the timeout. -/
theorem wait_for_spec (cond : Nat → Bool) (dur : Nat → Int)
    (timeout step : Int) (fuel : Nat) (hstep : 0 < step)
    (hdur : ∀ j, 0 ≤ dur j ∧ dur j ≤ step) :
    (timeout ≤ 0 → 0 < fuel →
      wait_for cond dur timeout step fuel = (.timeoutExc 0, []))
    ∧ (0 < timeout → 0 < fuel →
      (wait_for cond dur timeout step fuel).2.head? = some (.poll 0 (cond 0)))
    ∧ (∀ k, (∀ j, j < k → cond j = false) → cond k = true →
        waitElapsed dur step 0 k < timeout → k < fuel →
        wait_for cond dur timeout step fuel
          = (.success (waitElapsed dur step 0 k + dur k),
             falseTrace 0 k ++ [.poll k true]))
    ∧ (∀ e, (wait_for cond dur timeout step fuel).1 = .success e →
        0 ≤ e ∧ e < timeout + step)
    ∧ (∀ e tr, wait_for cond dur timeout step fuel = (.timeoutExc e, tr) →
        timeout ≤ e ∧ ∀ j, WaitEvent.poll j true ∉ tr)
    ∧ (timeout.toNat < fuel →
        (wait_for cond dur timeout step fuel).1 ≠ .fuelOut) := by
  have hdur0 : ∀ j, 0 ≤ dur j := fun j => (hdur j).1
  refine ⟨?_, ?_, ?_, ?_, ?_, ?_⟩
  · intro ht hf
    obtain ⟨f, rfl⟩ : ∃ f, fuel = f + 1 := ⟨fuel - 1, by omega⟩
    rw [wait_for, wait_for_loop, if_neg (by omega : ¬ (0 : Int) < timeout)]
  · intro ht hf
    obtain ⟨f, rfl⟩ : ∃ f, fuel = f + 1 := ⟨fuel - 1, by omega⟩
    rw [wait_for, wait_for_loop, if_pos (by omega : (0 : Int) < timeout)]
    cases hc : cond 0 with
    | true => rfl
    | false => rfl
  · intro k hfalse htrue hel hk
    have h := wait_for_loop_success cond dur timeout step (le_of_lt hstep)
      hdur0 k fuel 0 0 hk
      (fun j hj => by rw [Nat.zero_add]; exact hfalse j hj)
      (by rw [Nat.zero_add]; exact htrue)
      (by omega)
    rw [wait_for, h]
    simp
  · intro e h
    exact wait_for_loop_success_bound cond dur timeout step hdur fuel 0 0 e
      (le_refl 0) h
  · intro e tr h
    exact wait_for_loop_timeout cond dur timeout step fuel 0 0 e tr h
  · intro hf
    exact wait_for_loop_no_fuelOut cond dur timeout step hstep hdur0 fuel 0 0
      (by omega)

/-- Claim C7, witness: a condition that becomes true at the second poll,
instant polls, timeout 10 and step 2: the run polls, sleeps once, polls
again and returns `True` with 2 elapsed — within timeout + step. -/
theorem wait_for_spec_witness :
    wait_for (fun i => i == 1) (fun _ => (0 : Int)) 10 2 11
      = (.success 2, [.poll 0 false, .sleep, .poll 1 true]) := by
  have h := (wait_for_spec (fun i => i == 1) (fun _ => (0 : Int)) 10 2 11
    (by decide) (fun j => ⟨le_refl 0, by norm_num⟩)).2.2.1 1
    (fun j hj => by
      have hj0 : j = 0 := by omega
      subst hj0
      rfl)
    rfl (by decide) (by decide)
  exact h.trans (by decide)

/-! ## `get_hostname` (update.py lines 1035-1040)

The source compiles `^.+\:(?P<hostname>.+)_....-..-.._..-..-..$` — with `.`
wildcards, not `\d` — and `re.match`-es each session name against it.  The
embedding fixes the Python semantics of this one pattern: the trailing
fixed-length part must occupy the last twenty characters of the match, `.`
matches any character except a newline, `$` accepts the end of the string
or the position just before a final newline, and both `.+` groups are
greedy, so the engine tries larger colon positions first and, for each, the
later match end first. -/

/-- Offsets (from the start of the 20-character suffix
`_....-..-.._..-..-..`) of its literal characters. -/
def suffixLits : List (Nat × Char) :=
  [(0, '_'), (5, '-'), (8, '-'), (11, '_'), (14, '-'), (17, '-')]

/-- Offsets of the `.` wildcard positions in the same suffix. -/
def suffixDots : List Nat := [1, 2, 3, 4, 6, 7, 9, 10, 12, 13, 15, 16, 18, 19]

/-- Decides whether colon position `p` and match end `e` witness a full
match of `^.+\:(?P<hostname>.+)_....-..-.._..-..-..$` against `cs`: a
nonempty newline-free prefix before the colon at `p`, a nonempty
newline-free hostname, the fixed-shape suffix in the last twenty characters
before `e`, and `e` at the end of the string or just before a final
newline. -/
def validPE (cs : List Char) (p e : Nat) : Bool :=
  let n := cs.length
  decide (1 ≤ p) && decide (p + 22 ≤ e) && decide (e ≤ n)
    && (decide (e = n) || (decide (e + 1 = n) && (cs[n - 1]? == some '\n')))
    && (cs[p]? == some ':')
    && suffixLits.all (fun oc => cs[e - 20 + oc.1]? == some oc.2)
    && suffixDots.all (fun o =>
        match cs[e - 20 + o]? with
        | some c => c != '\n'
        | none => false)
    && (cs.take p).all (fun c => c != '\n')
    && ((cs.drop (p + 1)).take (e - 20 - (p + 1))).all (fun c => c != '\n')

/-- Candidate (colon position, match end) pairs in the order the
backtracking engine tries them: larger colon position first, and for each
colon the later of the two admissible match ends first. -/
def peCandidates (n : Nat) : List (Nat × Nat) :=
  (List.range n).reverse.flatMap (fun p => [(p, n), (p, n - 1)])

/-- `get_hostname(session)`: the hostname group of the first match the
engine finds, or `none` for the raised `ValueError` when nothing matches. -/
def get_hostname (session : String) : Option String :=
  let cs := session.data
  match (peCandidates cs.length).find? (fun pe => validPE cs pe.1 pe.2) with
  | some pe => some ⟨(cs.drop (pe.1 + 1)).take (pe.2 - 20 - (pe.1 + 1))⟩
  | none => none

/-- Modelled from the spec: the claim's pattern
`^.+:(?P<host>.+)_\d{4}-\d{2}-\d{2}_\d{2}-\d{2}-\d{2}$`, which demands
decimal digits at the fourteen date-time positions where the source
pattern has `.` wildcards. -/
def validPEdigits (cs : List Char) (p e : Nat) : Bool :=
  let n := cs.length
  decide (1 ≤ p) && decide (p + 22 ≤ e) && decide (e ≤ n)
    && (decide (e = n) || (decide (e + 1 = n) && (cs[n - 1]? == some '\n')))
    && (cs[p]? == some ':')
    && suffixLits.all (fun oc => cs[e - 20 + oc.1]? == some oc.2)
    && suffixDots.all (fun o =>
        match cs[e - 20 + o]? with
        | some c => c.isDigit
        | none => false)
    && (cs.take p).all (fun c => c != '\n')
    && ((cs.drop (p + 1)).take (e - 20 - (p + 1))).all (fun c => c != '\n')

/-- Whether a session name matches the digit-demanding pattern the claim
states. -/
def matchesDigitPattern (session : String) : Bool :=
  ((peCandidates session.data.length).find?
    (fun pe => validPEdigits session.data pe.1 pe.2)).isSome

/-- Hosts the push-to-fleet loop of `reboot_inactive_clients` (update.py
lines 941-950) will consider for one snapshot's session list: a session
whose hostname cannot be derived is skipped (the exception is logged and
the loop continues), and the configured test host is skipped. -/
def reboot_candidates (testHost : String) : List String → List String
  | [] => []
  | sess :: rest =>
    match get_hostname sess with
    | none => reboot_candidates testHost rest
    | some host =>
      if host ≠ testHost then host :: reboot_candidates testHost rest
      else reboot_candidates testHost rest

/-- Claim C5, counterexample: the session name
`iqn.x:hosty_aaaa-bb-cc_dd-ee-ff` ends in letters, not decimal digits, so
the claim's pattern rejects it — yet the source's wildcard pattern accepts
it and `get_hostname` yields `hosty` instead of raising. -/
theorem get_hostname_accepts_non_digit_dates :
    get_hostname "iqn.x:hosty_aaaa-bb-cc_dd-ee-ff" = some "hosty"
    ∧ matchesDigitPattern "iqn.x:hosty_aaaa-bb-cc_dd-ee-ff" = false := by
  exact ⟨by decide, by decide⟩

/-- Claim C5, amended: `get_hostname` yields a hostname exactly when the
session matches the source's pattern `^.+\:(?P<hostname>.+)_....-..-.._..-..-..$`,
whose date-time positions are `.` wildcards rather than decimal digits;
sessions with no such match are skipped by `reboot_inactive_clients` (the
exception is caught and the loop continues), as is the configured test
host. -/
theorem get_hostname_matches_wildcard_pattern (session testHost : String)
    (sessions : List String) :
    ((get_hostname session).isSome
      ↔ ∃ p e, validPE session.data p e = true)
    ∧ reboot_candidates testHost sessions
      = (sessions.filterMap get_hostname).filter (fun h => h ≠ testHost) := by
  constructor
  · rw [get_hostname]
    cases hfind : (peCandidates session.data.length).find?
        (fun pe => validPE session.data pe.1 pe.2) with
    | some pe =>
      simp only [hfind, Option.isSome_some, true_iff]
      have hv := List.find?_some hfind
      exact ⟨pe.1, pe.2, hv⟩
    | none =>
      simp only [hfind, Option.isSome_none, Bool.false_eq_true, false_iff]
      intro hex
      obtain ⟨p, e, hv⟩ := hex
      have hnone := List.find?_eq_none.mp hfind (p, e) ?_
      · exact hnone hv
      · have hparts : 1 ≤ p ∧ p + 22 ≤ e ∧ e ≤ session.data.length
            ∧ (e = session.data.length ∨ e + 1 = session.data.length) := by
          rw [validPE] at hv
          simp only [Bool.and_eq_true, Bool.or_eq_true, decide_eq_true_eq] at hv
          refine ⟨hv.1.1.1.1.1.1.1.1, hv.1.1.1.1.1.1.1.2, hv.1.1.1.1.1.1.2, ?_⟩
          rcases hv.1.1.1.1.1.2 with h | h
          · exact Or.inl h
          · exact Or.inr h.1
        rw [peCandidates, List.mem_flatMap]
        refine ⟨p, ?_, ?_⟩
        · rw [List.mem_reverse, List.mem_range]
          omega
        · rcases hparts.2.2.2 with h | h
          · rw [h]
            exact List.mem_cons_self _ _
          · have h2 : e = session.data.length - 1 := by omega
            rw [h2]
            exact List.mem_cons_of_mem _ (List.mem_cons_self _ _)
  · induction sessions with
    | nil => rfl
    | cons sess rest ih =>
      cases hs : get_hostname sess with
      | none => simp [reboot_candidates, hs, List.filterMap_cons, ih]
      | some host =>
        by_cases hh : host = testHost
        · simp [reboot_candidates, hs, List.filterMap_cons, List.filter_cons,
            hh, ih]
        · simp [reboot_candidates, hs, List.filterMap_cons, List.filter_cons,
            hh, ih]

end Cow
